import Mathlib

/-!
Verification of the file-track-api core: the transactional repository
pattern and the service-layer validation pipeline, shallowly embedded
from the Python source.

Conventions of the embedding:
* entities (`Rol`, and the structurally identical `CentroPoblado`) are
  records of `id : Option Nat`, `nombre : String` and optional
  timestamps, timestamps being modelled as natural numbers;
* the database table is a `List Rol`, a unit of work is a `DB` record
  carrying the rows, the next autoincrement id and the current clock;
* fallible Python code is embedded as `Except DomainExc`;
* each service operation additionally returns the ordered list of
  repository calls it issued (`RepoCall`), so that claims of the form
  "the underlying call is never invoked" are statable.
-/

namespace FileTrack

/-- Embeds `src/model/entity/rol.py` (`class Rol(SQLModel, table=True)`).
`id` is a `BIGINT` primary key absent before persistence, `nombre` a
unique non-null `TEXT`, `created_at` has server default
`CURRENT_TIMESTAMP`, `updated_at` is nullable and absent until the
first update.  `CentroPoblado`, `Area`, `Ambito` and
`CategoriaDocumento` declare the exact same four fields. -/
structure Rol where
  id : Option Nat
  nombre : String
  created_at : Option Nat
  updated_at : Option Nat
deriving Repr, DecidableEq

/-- The settlement entity `CentroPoblado` has the identical field shape. -/
abbrev CentroPoblado := Rol

/-- Embeds `src/schema/pagination.py` (`class Pagination(BaseModel)`). -/
structure Pagination where
  current_page : Nat
  per_page : Nat
  total : Nat
  total_pages : Nat
  next_page : Option Nat
  previous_page : Option Nat
deriving Repr, DecidableEq

/-- Embeds `src/schema/page.py` (`class Page(BaseModel)`): the rows of
the current page plus the pagination meta. -/
structure Page where
  data : List Rol
  meta : Pagination
deriving Repr, DecidableEq

/-- Embeds `src/schema/message_response.py`. -/
structure MessageResponse where
  message : String
  success : Bool
  details : Option String
  status_code : Nat
deriving Repr, DecidableEq

/-- The closed exception taxonomy of `src/exception/` and
`src/app/exception/`: one constructor per `BaseHTTPException`
subclass. -/
inductive TaxKind
  | badRequest
  | unauthorized
  | forbidden
  | notFound
  | conflict
  | invalidField
  | database
  | server
deriving Repr, DecidableEq

/-- The fixed default numeric code each exception class passes to
`BaseHTTPException.__init__` (`code=...` in each class under
`src/app/exception/` and `src/exception/`). -/
def TaxKind.code : TaxKind → Nat
  | .badRequest => 400
  | .unauthorized => 401
  | .forbidden => 403
  | .notFound => 404
  | .conflict => 409
  | .invalidField => 400
  | .database => 500
  | .server => 500

/-- An instance of a taxonomy exception: its class (kind), the human
message and the optional details string.  The type label and timestamp
carried by `BaseHTTPException` play no role in any claim and are
omitted. -/
structure DomainExc where
  kind : TaxKind
  message : String
  details : Option String
deriving Repr, DecidableEq

/-- Python exceptions that can escape a repository method body, as
discriminated by the `except` clauses of
`src/repository/decorator/transactional_decorator.py`:
`IntegrityError` (carrying `e.orig`), any `BaseHTTPException` subclass
(`domain`, with `InvalidFieldException` being kind `.invalidField`),
`AttributeError`, any other `SQLAlchemyError`, and any other
exception. -/
inductive PyExc
  | integrityError (orig : String)
  | domain (e : DomainExc)
  | attributeError (msg : String)
  | sqlalchemyError (msg : String)
  | other (msg : String)
deriving Repr, DecidableEq

/-- Models Python `str(e)` on an exception, used by the decorator for
the `details` field. -/
def PyExc.str : PyExc → String
  | .integrityError s => s
  | .domain e => e.message
  | .attributeError s => s
  | .sqlalchemyError s => s
  | .other s => s

/-- A value returned from a repository method body, as the decorator
sees it: `None`, a mapped entity (has `__table__`), a list of mapped
entities (`get_all`), a boolean (`delete`, `exists_by`) or a `Page`
(pydantic model, no `__table__`, not a `list`). -/
inductive RepoValue
  | noneVal
  | entity (r : Rol)
  | entityList (rs : List Rol)
  | boolVal (b : Bool)
  | pageVal (p : Page)
deriving Repr, DecidableEq

/-- The decorator's refresh scan: a non-`None` entity result is
refreshed; for a list result every item with `__table__` (every `Rol`)
is refreshed; booleans and `Page` values have no `__table__` and are
not lists of entities, so nothing is refreshed. -/
def refreshTargets : RepoValue → List Rol
  | .entity r => [r]
  | .entityList rs => rs
  | _ => []

/-- Refresh: `session.refresh` reloads the entity's attributes from storage,
modelled by applying the storage reload function `f`; the refreshed
object is what the wrapper returns. -/
def applyRefresh (f : Rol → Rol) : RepoValue → RepoValue
  | .entity r => .entity (f r)
  | .entityList rs => .entityList (rs.map f)
  | v => v

/-- The exception-remapping of the decorator's `except` chain, in
clause order: `IntegrityError` → `DatabaseException("Error de
integridad de datos", details=str(e.orig))`; `InvalidFieldException` →
re-raised unchanged; any other `BaseHTTPException` subclass is not
matched by an earlier clause and falls to `except Exception` →
`DatabaseException` with the generic unexpected-repository-error
message; `AttributeError` → `InvalidFieldException`; other
`SQLAlchemyError` → `DatabaseException` naming the operation. -/
def txDispatch (funcName : String) : PyExc → DomainExc
  | .integrityError orig =>
      ⟨.database, "Error de integridad de datos", some orig⟩
  | .domain e =>
      if e.kind = .invalidField then e
      else
        ⟨.database, "Error inesperado en operación de repositorio: " ++ funcName,
          some (PyExc.str (.domain e))⟩
  | .attributeError s =>
      ⟨.invalidField, "Error en los atributos proporcionados", some s⟩
  | .sqlalchemyError s =>
      ⟨.database, "Error en operación de base de datos: " ++ funcName, some s⟩
  | .other s =>
      ⟨.database, "Error inesperado en operación de repositorio: " ++ funcName, some s⟩

/-- The session actions the wrapper performed. -/
structure TxTrace where
  commits : Nat
  rollbacks : Nat
  refreshed : List Rol
deriving Repr, DecidableEq

/-- Embeds the `wrapper` of `transactional` in
`src/repository/decorator/transactional_decorator.py`.  The wrapped
call's behaviour is given as its outcome `out` (result or raised
exception); `f` is the storage reload performed by
`session.refresh`.  On success with `readonly = False` the wrapper
commits once and refreshes each entity result; with `readonly = True`
it returns the result untouched; on an exception it rolls back once
and raises what `txDispatch` maps the exception to. -/
def transactionalRun (readonly : Bool) (funcName : String) (f : Rol → Rol)
    (out : Except PyExc RepoValue) : Except DomainExc RepoValue × TxTrace :=
  match out with
  | .ok v =>
      if readonly then
        (.ok v, ⟨0, 0, []⟩)
      else
        (.ok (applyRefresh f v), ⟨1, 0, refreshTargets v⟩)
  | .error e =>
      (.error (txDispatch funcName e), ⟨0, 1, []⟩)

/-! ## The unit of work and the storage effects of the wrapped repository -/

/-- The state of a unit of work: the table rows, the next autoincrement
primary key and the clock supplying `CURRENT_TIMESTAMP`. -/
structure DB where
  rows : List Rol
  nextId : Nat
  now : Nat
deriving Repr, DecidableEq

/-- Typed value of a keyword criterion passed to `exists_by`:
the services pass ints (`id=...`) and strings (`nombre=...`). -/
inductive FieldVal
  | vnat (n : Nat)
  | vstr (s : String)
deriving Repr, DecidableEq

/-- Python `key.startswith("_")`, the filter applied by the error
message's enumeration (`[f for f in valid_fields if not
f.startswith("_")]`). -/
def pyStartsUnderscore (k : String) : Bool :=
  match k.data with
  | [] => false
  | c :: _ => c = '_'

/-- Models the runtime key set `valid_fields = Rol.__dict__.keys()`
that `exists_by` validates criterion keys against.  It is not the set
of the entity's fields: besides the four mapped columns (installed on
every `table=True` model as SQLAlchemy instrumented attributes) the
class dict holds the class-body assignments `__tablename__` and
`__table_args__` (`rol.py`), the pydantic-v2 class metadata
`model_config` and `model_fields` (the project runs pydantic v2: the
boundary handler calls `model_dump()`), the SQLModel metaclass
bookkeeping `__sqlmodel_relationships__`, and the standard
class-namespace keys.  `exists_by` therefore accepts criterion keys
that name no field of the entity, and the non-underscore enumeration
in its error message contains the pydantic metadata names as well as
the field names. -/
def valid_fields : List String :=
  ["__module__", "__qualname__", "__doc__", "__annotations__",
   "__tablename__", "__table_args__", "__sqlmodel_relationships__",
   "model_config", "model_fields",
   "id", "nombre", "created_at", "updated_at"]

/-- The condition `getattr(Rol, key) == value` evaluated on one row.
For a mapped column this is SQL equality under SQL null semantics (a
NULL column compares unequal to every value).  For a non-column class
attribute, `getattr` yields the class attribute itself and `==` is
evaluated eagerly in Python to a row-independent boolean that
SQLAlchemy coerces into the query: `__tablename__` is the string
"roles", `__module__` and `__qualname__` are the import-path strings,
and the remaining metadata keys hold non-scalar objects (tuples,
dicts, mapping metadata) that compare unequal to every string or int
criterion value. -/
def Rol.fieldMatches (r : Rol) (key : String) (v : FieldVal) : Bool :=
  if key = "id" then
    match r.id, v with
    | some n, .vnat m => n = m
    | _, _ => false
  else if key = "nombre" then
    match v with
    | .vstr s => r.nombre = s
    | _ => false
  else if key = "created_at" then
    match r.created_at, v with
    | some t, .vnat m => t = m
    | _, _ => false
  else if key = "updated_at" then
    match r.updated_at, v with
    | some t, .vnat m => t = m
    | _, _ => false
  else if key = "__tablename__" then
    match v with
    | .vstr s => s = "roles"
    | _ => false
  else if key = "__module__" then
    match v with
    | .vstr s => s = "src.model.entity.rol"
    | _ => false
  else if key = "__qualname__" then
    match v with
    | .vstr s => s = "Rol"
    | _ => false
  else false

/-- Embeds `RolRepositoryImpl.exists_by`
(`src/repository/implementations/rol_repository_impl.py`): every
criterion key is checked against `Rol.__dict__.keys()`, the first
unknown key raises `InvalidFieldException` enumerating the
non-underscore keys of that dict before any query runs; otherwise the
query selects whether some row satisfies all criteria conjoined. -/
def exists_by (rows : List Rol) (criteria : List (String × FieldVal)) :
    Except DomainExc Bool :=
  match criteria.find? (fun kv => !(valid_fields.contains kv.1)) with
  | some kv =>
      .error ⟨.invalidField,
        "Field \x27" ++ kv.1 ++ "\x27 does not exist in the Rol model",
        some ("Valid fields are: " ++ String.intercalate ", "
          (valid_fields.filter fun f => !(pyStartsUnderscore f)))⟩
  | none =>
      .ok (rows.any fun r => criteria.all fun kv => r.fieldMatches kv.1 kv.2)

/-- Embeds `RolRepositoryImpl.get_by_id`: `select(Rol).where(Rol.id ==
rol_id)` then `.first()`, returning the row or `None`. -/
def get_by_id (rows : List Rol) (rol_id : Nat) : Option Rol :=
  rows.find? fun r => r.id = some rol_id

/-- Net effect of `RolRepositoryImpl.save` under the mutating wrapper:
stage the entity, commit, refresh.  An entity without `id` is inserted
with the autoincrement key and the `CURRENT_TIMESTAMP` server default
for `created_at`; an entity with `id` updates its row in place.  A
violation of the unique constraint on `nombre` surfaces as
`IntegrityError`, which the wrapper maps to
`DatabaseException("Error de integridad de datos")`. -/
def dbSave (db : DB) (r : Rol) : Except DomainExc (DB × Rol) :=
  match r.id with
  | none =>
      if db.rows.any (fun q => q.nombre = r.nombre) then
        .error ⟨.database, "Error de integridad de datos",
          some "duplicate key value violates unique constraint"⟩
      else
        let saved : Rol :=
          { r with id := some db.nextId, created_at := some db.now }
        .ok ({ db with rows := db.rows ++ [saved], nextId := db.nextId + 1 }, saved)
  | some i =>
      if db.rows.any (fun q => q.nombre = r.nombre && !(q.id = some i)) then
        .error ⟨.database, "Error de integridad de datos",
          some "duplicate key value violates unique constraint"⟩
      else
        .ok ({ db with rows := db.rows.map fun q => if q.id = some i then r else q }, r)

/-- Net effect of `RolRepositoryImpl.delete` under the mutating
wrapper: load by id, `session.delete`, return `True`.  Deleting a
missing id passes `None` to `session.delete`, an `SQLAlchemyError`
the wrapper maps to `DatabaseException` naming the operation. -/
def dbDelete (db : DB) (rol_id : Nat) : Except DomainExc (DB × Bool) :=
  match get_by_id db.rows rol_id with
  | none =>
      .error ⟨.database, "Error en operación de base de datos: delete",
        some "Class NoneType is not mapped"⟩
  | some _ =>
      .ok ({ db with rows := db.rows.filter fun r => !(r.id = some rol_id) }, true)

/-! ## Pagination and search queries -/

/-- The `Pagination` construction block that `get_pageable` and `find`
repeat verbatim: `total_pages = math.ceil(total_items / size) if
total_items > 0 else 1` (for `size ≥ 1`, `ceil` of the exact quotient
is `(total_items + size - 1) / size`), `next_page = page + 1 if page <
total_pages else None`, `previous_page = page - 1 if page > 1 else
None`. -/
def buildMeta (page size total_items : Nat) : Pagination :=
  let total_pages := if 0 < total_items then (total_items + size - 1) / size else 1
  let next_page := if page < total_pages then some (page + 1) else none
  let previous_page := if 1 < page then some (page - 1) else none
  ⟨page, size, total_items, total_pages, next_page, previous_page⟩

/-- Embeds `RolRepositoryImpl.get_pageable`: offset `(page-1)*size`,
`size` rows from there in storage order, total row count, and the meta
block above. -/
def get_pageable (rows : List Rol) (page size : Nat) : Page :=
  let offset_value := (page - 1) * size
  let roles := (rows.drop offset_value).take size
  ⟨roles, buildMeta page size rows.length⟩

/-- SQL `lower()` / Python `str.lower()` on the embedded names,
character by character. -/
def lowerStr (s : String) : String := ⟨s.data.map Char.toLower⟩

/-- All suffixes of a character list, longest first, ending with `[]`. -/
def tails : List Char → List (List Char)
  | [] => [[]]
  | c :: s => (c :: s) :: tails s

/-- SQL `LIKE` matching of a pattern against a string: `%` in the
pattern matches any (possibly empty) character sequence, `_` matches
exactly one character, every other character matches itself. -/
def likeMatch : List Char → List Char → Bool
  | [], s => s.isEmpty
  | p :: ps, s =>
      if p = '%' then (tails s).any fun t => likeMatch ps t
      else
        match s with
        | [] => false
        | d :: s2 => (p = '_' || p = d) && likeMatch ps s2

/-- The condition `func.lower(Rol.nombre).like(f"%{v}%")` built by
`find` for a populated criterion value `v` already lowercased.  The
search value is interpolated into the `LIKE` pattern unescaped, so a
`%` or `_` inside it acts as a wildcard; for wildcard-free values this
is case-insensitive substring containment. -/
def likeCond (v : String) (r : Rol) : Bool :=
  likeMatch ('%' :: v.data ++ ['%']) (lowerStr r.nombre).data

/-- The loop of `RolRepositoryImpl.find` collecting one condition per
criterion whose value is truthy (non-empty) and whose field is in
`allowed_fields = ["nombre"]`; the lowered search value is what the
condition closes over. -/
def findConditions (search_dict : List (String × String)) : List String :=
  (search_dict.filter fun kv =>
      !(kv.2 = "") && ["nombre"].contains kv.1).map fun kv => lowerStr kv.2

/-- Embeds `RolRepositoryImpl.find`: rows are restricted by the
disjunction (`or_`) of the collected conditions when any exist, both
for the page of data and for the count; pagination meta is computed
exactly as in `get_pageable`. -/
def rolFind (rows : List Rol) (page size : Nat)
    (search_dict : List (String × String)) : Page :=
  let conditions := findConditions search_dict
  let filtered :=
    if conditions.isEmpty then rows
    else rows.filter fun r => conditions.any fun c => likeCond c r
  let offset_value := (page - 1) * size
  let data := (filtered.drop offset_value).take size
  ⟨data, buildMeta page size filtered.length⟩

/-! ## Service layer (`src/app/service/implementations/`) -/

/-- Embeds `src/app/dto/response/role_response_dto.py`: the
response-facing projection of a `Rol` (identical field shape). -/
structure RoleResponseDTO where
  id : Option Nat
  nombre : String
  created_at : Option Nat
  updated_at : Option Nat
deriving Repr, DecidableEq

/-- Projection `RoleResponseDTO(id=role.id, nombre=role.nombre, ...)`. -/
def Rol.toDTO (r : Rol) : RoleResponseDTO :=
  ⟨r.id, r.nombre, r.created_at, r.updated_at⟩

/-- A page of response projections (`RolePage` / `SettlementPage`). -/
structure RolePage where
  data : List RoleResponseDTO
  meta : Pagination
deriving Repr, DecidableEq

/-- One repository invocation issued by a service method, recorded in
call order so that never-invoked claims are statable. -/
inductive RepoCall
  | existsByCall (criteria : List (String × FieldVal))
  | saveCall
  | getByIdCall (id : Nat)
  | deleteCall (id : Nat)
  | getAllCall
  | getPageableCall (page size : Nat)
  | findCall (page size : Nat)
deriving Repr, DecidableEq

/-- Builds `ConflictException(details=...)` with its default message and
code 409. -/
def conflictExc (details : String) : DomainExc :=
  ⟨.conflict, "A conflict occurred with the requested operation.", some details⟩

/-- Builds `NotFoundException(details=...)` with its default message and
code 404. -/
def notFoundExc (details : String) : DomainExc :=
  ⟨.notFound, "The requested resource was not found.", some details⟩

/-- Builds the `ServerException(details=...)` raised by `handle_exceptions` when a
non-taxonomy exception escapes the service body. -/
def serverExc (details : String) : DomainExc :=
  ⟨.server, "An unexpected server error occurred.", some details⟩

/-- Builds `BadRequestException(message=..., details=...)`. -/
def badRequestExc (message details : String) : DomainExc :=
  ⟨.badRequest, message, some details⟩

/-- Embeds `RoleServiceImpl.add_role`
(`src/app/service/implementations/role_service_impl.py`):
`exists_by(nombre=...)`, `ConflictException` on a hit, otherwise build
`Rol(nombre=...)` with only the name populated, `save`, and project
the refreshed entity.  All raised exceptions are `BaseHTTPException`
subclasses, which `handle_exceptions` re-raises unchanged. -/
def add_role (db : DB) (nombre : String) :
    Except DomainExc RoleResponseDTO × DB × List RepoCall :=
  let crit : List (String × FieldVal) := [("nombre", .vstr nombre)]
  match exists_by db.rows crit with
  | .error e => (.error e, db, [.existsByCall crit])
  | .ok true =>
      (.error (conflictExc ("Role with name " ++ nombre ++ " already exists.")),
        db, [.existsByCall crit])
  | .ok false =>
      let new_role : Rol := ⟨none, nombre, none, none⟩
      match dbSave db new_role with
      | .error e => (.error e, db, [.existsByCall crit, .saveCall])
      | .ok (db2, created) =>
          (.ok created.toDTO, db2, [.existsByCall crit, .saveCall])

/-- Embeds `RoleServiceImpl.update_role`: existence by id
(`NotFoundException` on a miss before any `get_by_id`/`save`), load the
current row, check name uniqueness only when the requested name
differs from the current one (`ConflictException` on a hit), then
mutate `nombre`, stamp `updated_at = datetime.now()` and `save`.  The
unreachable `None` row after a positive existence check would surface
as an `AttributeError` that `handle_exceptions` maps to
`ServerException`. -/
def update_role (db : DB) (role_id : Nat) (req_nombre : String) :
    Except DomainExc RoleResponseDTO × DB × List RepoCall :=
  let idCrit : List (String × FieldVal) := [("id", .vnat role_id)]
  match exists_by db.rows idCrit with
  | .error e => (.error e, db, [.existsByCall idCrit])
  | .ok false =>
      (.error (notFoundExc ("Role with id " ++ toString role_id ++ " not found.")),
        db, [.existsByCall idCrit])
  | .ok true =>
      match get_by_id db.rows role_id with
      | none =>
          (.error (serverExc "Error de implementación: NoneType has no attribute nombre"),
            db, [.existsByCall idCrit, .getByIdCall role_id])
      | some role =>
          let nameCrit : List (String × FieldVal) := [("nombre", .vstr req_nombre)]
          let updated : Rol := { role with nombre := req_nombre, updated_at := some db.now }
          if role.nombre = req_nombre then
            match dbSave db updated with
            | .error e =>
                (.error e, db, [.existsByCall idCrit, .getByIdCall role_id, .saveCall])
            | .ok (db2, saved) =>
                (.ok saved.toDTO, db2, [.existsByCall idCrit, .getByIdCall role_id, .saveCall])
          else
            match exists_by db.rows nameCrit with
            | .error e =>
                (.error e, db,
                  [.existsByCall idCrit, .getByIdCall role_id, .existsByCall nameCrit])
            | .ok true =>
                (.error (conflictExc ("Role with name " ++ req_nombre ++ " already exists.")),
                  db, [.existsByCall idCrit, .getByIdCall role_id, .existsByCall nameCrit])
            | .ok false =>
                match dbSave db updated with
                | .error e =>
                    (.error e, db,
                      [.existsByCall idCrit, .getByIdCall role_id,
                        .existsByCall nameCrit, .saveCall])
                | .ok (db2, saved) =>
                    (.ok saved.toDTO, db2,
                      [.existsByCall idCrit, .getByIdCall role_id,
                        .existsByCall nameCrit, .saveCall])

/-- Embeds `RoleServiceImpl.delete_role`: existence by id
(`NotFoundException` on a miss, and `delete` is never reached), then
`delete` and a success/failure `MessageResponse` depending on the
returned boolean. -/
def delete_role (db : DB) (role_id : Nat) :
    Except DomainExc MessageResponse × DB × List RepoCall :=
  let idCrit : List (String × FieldVal) := [("id", .vnat role_id)]
  match exists_by db.rows idCrit with
  | .error e => (.error e, db, [.existsByCall idCrit])
  | .ok false =>
      (.error (notFoundExc ("Role with ID " ++ toString role_id ++ " not found.")),
        db, [.existsByCall idCrit])
  | .ok true =>
      match dbDelete db role_id with
      | .error e => (.error e, db, [.existsByCall idCrit, .deleteCall role_id])
      | .ok (db2, resp) =>
          if resp then
            (.ok ⟨"Role deleted successfully.", true,
                some ("Role with ID " ++ toString role_id ++ " deleted successfully."), 200⟩,
              db2, [.existsByCall idCrit, .deleteCall role_id])
          else
            (.ok ⟨"Failed to delete role.", false,
                some ("Role with ID " ++ toString role_id ++ " could not be deleted."), 500⟩,
              db2, [.existsByCall idCrit, .deleteCall role_id])

/-- Embeds `RoleServiceImpl.get_role_by_id`: existence by id
(`NotFoundException` on a miss, `get_by_id` never reached), then load
and project. -/
def get_role_by_id (db : DB) (role_id : Nat) :
    Except DomainExc RoleResponseDTO × List RepoCall :=
  let idCrit : List (String × FieldVal) := [("id", .vnat role_id)]
  match exists_by db.rows idCrit with
  | .error e => (.error e, [.existsByCall idCrit])
  | .ok false =>
      (.error (notFoundExc ("Role with ID " ++ toString role_id ++ " not found.")),
        [.existsByCall idCrit])
  | .ok true =>
      match get_by_id db.rows role_id with
      | none =>
          (.error (serverExc "Error de implementación: NoneType has no attribute id"),
            [.existsByCall idCrit, .getByIdCall role_id])
      | some role => (.ok role.toDTO, [.existsByCall idCrit, .getByIdCall role_id])

/-- Embeds `RoleServiceImpl.get_paginated_roles`: `BadRequestException`
for `page < 1` or `size < 1` before touching storage, else
`get_pageable` and projection row by row. -/
def get_paginated_roles (db : DB) (page size : Int) :
    Except DomainExc RolePage × List RepoCall :=
  if page < 1 then
    (.error (badRequestExc "Invalid page number" "Page number must be greater than 0."), [])
  else if size < 1 then
    (.error (badRequestExc "Invalid size number" "Size number must be greater than 0."), [])
  else
    let p := get_pageable db.rows page.toNat size.toNat
    (.ok ⟨p.data.map Rol.toDTO, p.meta⟩, [.getPageableCall page.toNat size.toNat])

/-- Embeds `RoleServiceImpl.find`: paging validation, then
`repository.find` with `search_dict = {"nombre": search_term}`.  The
source then guards `if page_result.data is None: raise
NotFoundException(...)`; the repository always constructs
`Page(data=list(results.all()), ...)`, a list object that is never
`None`, so the guard never fires and the result is projected as-is —
including when the filtered result set is empty. -/
def role_service_find (db : DB) (page size : Int) (search_term : String) :
    Except DomainExc RolePage × List RepoCall :=
  if page < 1 then
    (.error (badRequestExc "Invalid page number" "Page number must be greater than 0."), [])
  else if size < 1 then
    (.error (badRequestExc "Invalid size number" "Size number must be greater than 0."), [])
  else
    let p := rolFind db.rows page.toNat size.toNat [("nombre", search_term)]
    (.ok ⟨p.data.map Rol.toDTO, p.meta⟩, [.findCall page.toNat size.toNat])

/-- Embeds `SettlementServiceImpl.find`
(`src/app/service/implementations/settlement_service_impl.py`): same
pipeline over the structurally identical `CentroPoblado` rows, but the
emptiness guard is `if not page_result.data:`, which is true exactly
when the filtered result list is empty and then raises
`NotFoundException` naming the search term. -/
def settlement_service_find (db : DB) (page size : Int) (search_term : String) :
    Except DomainExc RolePage × List RepoCall :=
  if page < 1 then
    (.error (badRequestExc "Invalid page number" "Page number must be greater than 0"), [])
  else if size < 1 then
    (.error (badRequestExc "Invalid size number" "Size number must be greater than 0"), [])
  else
    let p := rolFind db.rows page.toNat size.toNat [("nombre", search_term)]
    if p.data.isEmpty then
      (.error (notFoundExc ("No settlements found with the search term " ++ search_term)),
        [.findCall page.toNat size.toNat])
    else
      (.ok ⟨p.data.map Rol.toDTO, p.meta⟩, [.findCall page.toNat size.toNat])

/-! ## Theorems -/

/-- Helper: a single-criterion `exists_by` probe on a key present in
the class dict skips the validation error and runs the query. -/
theorem exists_by_valid_key (rows : List Rol) (k : String) (v : FieldVal)
    (hk : valid_fields.contains k = true) :
    exists_by rows [(k, v)] = .ok (rows.any fun r => r.fieldMatches k v) := by
  have hk2 : k ∈ valid_fields := by simpa using hk
  have hn : (List.find? (fun kv => !(valid_fields.contains kv.1)) [(k, v)]) = none := by
    rw [List.find?_eq_none]
    rintro kv hkv
    simp only [List.mem_singleton] at hkv
    subst hkv
    simp [hk2]
  simp only [exists_by, hn]
  simp only [List.all_cons, List.all_nil, Bool.and_true]

/-- C2: when the wrapped call succeeds with `readonly = false` the
wrapper commits exactly once and refreshes each entity result (the
single entity, or every entity of a list result), returning the
refreshed result; with `readonly = true` it performs no commit and no
refresh and returns the result unchanged. -/
theorem transactional_commit_refresh (funcName : String) (f : Rol → Rol) :
    (∀ r : Rol, transactionalRun false funcName f (.ok (.entity r)) =
        (.ok (.entity (f r)), ⟨1, 0, [r]⟩))
  ∧ (∀ rs : List Rol, transactionalRun false funcName f (.ok (.entityList rs)) =
        (.ok (.entityList (rs.map f)), ⟨1, 0, rs⟩))
  ∧ (∀ v : RepoValue, (transactionalRun false funcName f (.ok v)).2.commits = 1
        ∧ (transactionalRun false funcName f (.ok v)).2.rollbacks = 0)
  ∧ (∀ v : RepoValue, transactionalRun true funcName f (.ok v) = (.ok v, ⟨0, 0, []⟩)) :=
  ⟨fun _ => rfl, fun _ => rfl, fun _ => ⟨rfl, rfl⟩, fun _ => rfl⟩

/-- C3 counterexample: a `ConflictException` raised inside a wrapped
mutating call is not re-raised unchanged — the wrapper's `except`
chain only names `InvalidFieldException`, so the conflict falls
through to `except Exception` and comes out re-wrapped as a
`DatabaseException`. -/
theorem transactional_rewraps_conflict :
    ¬ ((transactionalRun false "save" id
          (.error (.domain (conflictExc "x")))).1 =
        .error (conflictExc "x")) := by
  simp [transactionalRun, txDispatch, conflictExc, PyExc.str]

/-- C3 amended: on a taxonomy exception raised inside the wrapped
call the wrapper rolls back exactly once, and re-raises the exception
unchanged only when it is an `InvalidFieldException`; every other
taxonomy kind is re-wrapped into a `DatabaseException` carrying the
generic unexpected-repository-error message for the operation. -/
theorem transactional_domain_exc (readonly : Bool) (funcName : String)
    (f : Rol → Rol) (e : DomainExc) :
    (transactionalRun readonly funcName f (.error (.domain e))).2.rollbacks = 1
  ∧ (e.kind = .invalidField →
      (transactionalRun readonly funcName f (.error (.domain e))).1 = .error e)
  ∧ (e.kind ≠ .invalidField →
      (transactionalRun readonly funcName f (.error (.domain e))).1 =
        .error ⟨.database,
          "Error inesperado en operación de repositorio: " ++ funcName,
          some e.message⟩) := by
  refine ⟨rfl, fun h => ?_, fun h => ?_⟩
  · simp [transactionalRun, txDispatch, h]
  · simp [transactionalRun, txDispatch, h, PyExc.str]

/-- Witness for the amended C3 at concrete inputs: an
`InvalidFieldException` passes through unchanged, and the hypothesis
of the other branch is dischargeable too. -/
theorem transactional_domain_exc_witness :
    (transactionalRun false "exists_by" id
        (.error (.domain ⟨.invalidField, "m", none⟩))).1 =
      .error ⟨.invalidField, "m", none⟩ :=
  (transactional_domain_exc false "exists_by" id ⟨.invalidField, "m", none⟩).2.1 rfl

/-- C9: for a listing (`get_pageable`) and a search (`find`) the meta
satisfies `total_pages = ceil(total / size)` when the (filtered) total
is positive and `total_pages = 1` when it is zero; `next_page` is
present iff `current_page < total_pages` and always equals
`current_page + 1`; `previous_page` is present iff `current_page > 1`
and always equals `current_page - 1`. -/
theorem pagination_meta_correct (rows : List Rol) (page size : Nat)
    (sd : List (String × String)) (hs : 1 ≤ size) :
    (0 < (get_pageable rows page size).meta.total →
        (get_pageable rows page size).meta.total_pages =
          (get_pageable rows page size).meta.total ⌈/⌉ size)
  ∧ ((get_pageable rows page size).meta.total = 0 →
        (get_pageable rows page size).meta.total_pages = 1)
  ∧ ((get_pageable rows page size).meta.next_page.isSome ↔
        page < (get_pageable rows page size).meta.total_pages)
  ∧ (∀ n, (get_pageable rows page size).meta.next_page = some n → n = page + 1)
  ∧ ((get_pageable rows page size).meta.previous_page.isSome ↔ 1 < page)
  ∧ (∀ n, (get_pageable rows page size).meta.previous_page = some n → n = page - 1)
  ∧ (0 < (rolFind rows page size sd).meta.total →
        (rolFind rows page size sd).meta.total_pages =
          (rolFind rows page size sd).meta.total ⌈/⌉ size)
  ∧ ((rolFind rows page size sd).meta.total = 0 →
        (rolFind rows page size sd).meta.total_pages = 1)
  ∧ ((rolFind rows page size sd).meta.next_page.isSome ↔
        page < (rolFind rows page size sd).meta.total_pages)
  ∧ (∀ n, (rolFind rows page size sd).meta.next_page = some n → n = page + 1)
  ∧ ((rolFind rows page size sd).meta.previous_page.isSome ↔ 1 < page)
  ∧ (∀ n, (rolFind rows page size sd).meta.previous_page = some n → n = page - 1) := by
  have key : ∀ p T : Nat,
      (0 < (buildMeta p size T).total →
        (buildMeta p size T).total_pages = (buildMeta p size T).total ⌈/⌉ size)
      ∧ ((buildMeta p size T).total = 0 → (buildMeta p size T).total_pages = 1)
      ∧ ((buildMeta p size T).next_page.isSome ↔ p < (buildMeta p size T).total_pages)
      ∧ (∀ n, (buildMeta p size T).next_page = some n → n = p + 1)
      ∧ ((buildMeta p size T).previous_page.isSome ↔ 1 < p)
      ∧ (∀ n, (buildMeta p size T).previous_page = some n → n = p - 1) := by
    intro p T
    refine ⟨fun h => ?_, fun h => ?_, ?_, fun n h => ?_, ?_, fun n h => ?_⟩
    · simp only [buildMeta] at h ⊢
      simp only [if_pos h, Nat.ceilDiv_eq_add_pred_div]
    · simp only [buildMeta] at h ⊢
      simp [h]
    · simp only [buildMeta]
      split <;> simp_all
    · simp only [buildMeta] at h
      split at h <;> simp_all
    · simp only [buildMeta]
      split <;> simp_all
    · simp only [buildMeta] at h
      split at h <;> simp_all
  have hg : (get_pageable rows page size).meta = buildMeta page size rows.length := rfl
  obtain ⟨k1, k2, k3, k4, k5, k6⟩ := key page rows.length
  obtain ⟨m1, m2, m3, m4, m5, m6⟩ := key page
    (if (findConditions sd).isEmpty then rows
      else rows.filter fun r => (findConditions sd).any fun c => likeCond c r).length
  exact ⟨fun h => by rw [hg] at h ⊢; exact k1 h,
    fun h => by rw [hg] at h ⊢; exact k2 h,
    by rw [hg]; exact k3, fun n h => k4 n (by rw [hg] at h; exact h),
    by rw [hg]; exact k5, fun n h => k6 n (by rw [hg] at h; exact h),
    fun h => by exact m1 h, fun h => by exact m2 h,
    m3, m4, m5, m6⟩

/-- Witness for C9 at a concrete table and paging request. -/
theorem pagination_meta_correct_witness :
    (get_pageable [⟨some 1, "Administrador", some 0, none⟩,
        ⟨some 2, "Usuario", some 0, none⟩, ⟨some 3, "Invitado", some 0, none⟩]
      2 2).meta.total_pages =
      (get_pageable [⟨some 1, "Administrador", some 0, none⟩,
        ⟨some 2, "Usuario", some 0, none⟩, ⟨some 3, "Invitado", some 0, none⟩]
      2 2).meta.total ⌈/⌉ 2 :=
  (pagination_meta_correct
    [⟨some 1, "Administrador", some 0, none⟩, ⟨some 2, "Usuario", some 0, none⟩,
      ⟨some 3, "Invitado", some 0, none⟩] 2 2 [] (by decide)).1 (by decide)

/-- C10: when `(page - 1) * size` is at least the total row count,
`get_pageable` succeeds with an empty data list while the meta still
echoes the request (`current_page = page`, `per_page = size`); beyond
the last page `next_page` is absent but `previous_page` is still
`page - 1`.  The service passes such requests through: for `page ≥ 1`
and `size ≥ 1`, `get_paginated_roles` returns the page successfully. -/
theorem get_pageable_overshoot (db : DB) (page size : Nat)
    (hp : 1 ≤ page) (hs : 1 ≤ size) (h : db.rows.length ≤ (page - 1) * size) :
    (get_pageable db.rows page size).data = []
  ∧ (get_pageable db.rows page size).meta.current_page = page
  ∧ (get_pageable db.rows page size).meta.per_page = size
  ∧ ((get_pageable db.rows page size).meta.total_pages < page →
      (get_pageable db.rows page size).meta.next_page = none
      ∧ (get_pageable db.rows page size).meta.previous_page = some (page - 1))
  ∧ (get_paginated_roles db (page : Int) (size : Int)).1 =
      .ok ⟨[], (get_pageable db.rows page size).meta⟩ := by
  have hdata : (get_pageable db.rows page size).data = [] := by
    simp only [get_pageable]
    rw [List.drop_eq_nil_of_le h, List.take_nil]
  have htp : 1 ≤ (get_pageable db.rows page size).meta.total_pages := by
    simp only [get_pageable, buildMeta]
    split
    · rename_i hT
      rw [Nat.one_le_div_iff (by omega)]
      omega
    · exact le_rfl
  refine ⟨hdata, rfl, rfl, fun hover => ⟨?_, ?_⟩, ?_⟩
  · have : ¬ page < (get_pageable db.rows page size).meta.total_pages := by omega
    simp only [get_pageable, buildMeta] at this ⊢
    simp [this]
  · have : 1 < page := by omega
    simp only [get_pageable, buildMeta]
    simp [this]
  · simp only [get_paginated_roles]
    rw [if_neg (by omega), if_neg (by omega)]
    simp only [Int.toNat_natCast]
    rw [show (get_pageable db.rows page size).data.map Rol.toDTO = [] by
      rw [hdata]; rfl]

/-- Witness for C10: a five-row table requested at `page = 4`,
`size = 10` yields an empty page whose `previous_page = 3` itself
exceeds `total_pages = 1`. -/
theorem get_pageable_overshoot_witness :
    (get_pageable (DB.mk [⟨some 1, "Administrador", some 0, none⟩,
        ⟨some 2, "Usuario", some 0, none⟩, ⟨some 3, "Invitado", some 0, none⟩,
        ⟨some 4, "Auditor", some 0, none⟩, ⟨some 5, "Gestor", some 0, none⟩] 6 9).rows
      4 10).data = []
    ∧ (get_pageable (DB.mk [⟨some 1, "Administrador", some 0, none⟩,
        ⟨some 2, "Usuario", some 0, none⟩, ⟨some 3, "Invitado", some 0, none⟩,
        ⟨some 4, "Auditor", some 0, none⟩, ⟨some 5, "Gestor", some 0, none⟩] 6 9).rows
      4 10).meta.previous_page = some 3 :=
  have h := get_pageable_overshoot
    (DB.mk [⟨some 1, "Administrador", some 0, none⟩,
        ⟨some 2, "Usuario", some 0, none⟩, ⟨some 3, "Invitado", some 0, none⟩,
        ⟨some 4, "Auditor", some 0, none⟩, ⟨some 5, "Gestor", some 0, none⟩] 6 9)
    4 10 (by decide) (by decide) (by decide)
  ⟨h.1, (h.2.2.2.1 (by decide)).2⟩

deriving instance DecidableEq for Except

/-- A one-row table used as the failing input for the search-emptiness
claim: the term "zzz" matches nothing. -/
def dbOneRole : DB := ⟨[⟨some 1, "Administrador", some 0, none⟩], 2, 5⟩

/-- C1 (code bug): `RoleServiceImpl.find` guards emptiness with
`if page_result.data is None:`, but the repository always returns
`data` as a list object, so the guard never fires: a search with an
empty filtered result set is returned as a successful page with an
empty data list instead of raising `NotFoundException` — contradicting
the method's own docstring ("Raises NotFoundException: If no roles
match the search criteria").  The sibling
`SettlementServiceImpl.find`, whose guard is `if not
page_result.data:`, raises `NotFoundException` naming the search term
on the same input, as the claim demands. -/
theorem role_find_empty_result_bug :
    (role_service_find dbOneRole 1 10 "zzz").1 =
      .ok ⟨[], ⟨1, 10, 0, 1, none, none⟩⟩
  ∧ (settlement_service_find dbOneRole 1 10 "zzz").1 =
      .error (notFoundExc "No settlements found with the search term zzz") := by
  constructor <;> decide

/-- C4: creating with a name some row already bears (case-sensitive
exact match, found by `exists_by`) raises `ConflictException`
(code 409) and `save` is never invoked; creating with a fresh name
invokes `save` and returns a projection whose `id` and `created_at`
are populated. -/
theorem add_role_uniqueness (db : DB) (nombre : String) :
    ((∃ r ∈ db.rows, r.nombre = nombre) →
        (add_role db nombre).1 =
          .error (conflictExc ("Role with name " ++ nombre ++ " already exists."))
        ∧ (conflictExc ("Role with name " ++ nombre ++ " already exists.")).kind.code = 409
        ∧ RepoCall.saveCall ∉ (add_role db nombre).2.2)
  ∧ ((∀ r ∈ db.rows, r.nombre ≠ nombre) →
        ∃ dto, (add_role db nombre).1 = .ok dto
          ∧ dto.id.isSome ∧ dto.created_at.isSome ∧ dto.nombre = nombre
          ∧ RepoCall.saveCall ∈ (add_role db nombre).2.2) := by
  have hvalid : exists_by db.rows [("nombre", FieldVal.vstr nombre)] =
      .ok (db.rows.any fun r => r.nombre = nombre) := by
    simp [exists_by, List.find?, valid_fields, Rol.fieldMatches]
  constructor
  · intro h
    have hany : (db.rows.any fun r => decide (r.nombre = nombre)) = true := by
      rw [List.any_eq_true]
      obtain ⟨r, hr, he⟩ := h
      exact ⟨r, hr, by simp [he]⟩
    refine ⟨?_, rfl, ?_⟩ <;> simp [add_role, hvalid, hany]
  · intro h
    have hany : (db.rows.any fun r => decide (r.nombre = nombre)) = false := by
      rw [List.any_eq_false]
      intro r hr
      simp [h r hr]
    have hsave : dbSave db ⟨none, nombre, none, none⟩ =
        .ok (⟨db.rows ++ [⟨some db.nextId, nombre, some db.now, none⟩], db.nextId + 1, db.now⟩,
          ⟨some db.nextId, nombre, some db.now, none⟩) := by
      simp only [dbSave]
      rw [if_neg (by simp [hany])]
    refine ⟨⟨some db.nextId, nombre, some db.now, none⟩, ?_, rfl, rfl, rfl, ?_⟩ <;>
      simp [add_role, hvalid, hany, hsave, Rol.toDTO]

/-- Witness for C4 at concrete inputs: both branches discharged on
the one-row table. -/
theorem add_role_uniqueness_witness :
    ((add_role dbOneRole "Administrador").1 =
        .error (conflictExc "Role with name Administrador already exists."))
    ∧ (∃ dto, (add_role dbOneRole "Usuario").1 = .ok dto
        ∧ dto.id.isSome ∧ dto.created_at.isSome ∧ dto.nombre = "Usuario"
        ∧ RepoCall.saveCall ∈ (add_role dbOneRole "Usuario").2.2) :=
  ⟨((add_role_uniqueness dbOneRole "Administrador").1
      ⟨⟨some 1, "Administrador", some 0, none⟩, by decide, rfl⟩).1,
    (add_role_uniqueness dbOneRole "Usuario").2 (by decide)⟩

/-- C5: when no row bears the requested id, read-by-id, update and
delete each raise `NotFoundException` (code 404), and the recorded
repository trace is exactly the single `exists_by(id=...)` probe — the
underlying `get_by_id` / `save` / `delete` calls are never issued. -/
theorem id_existence_gating (db : DB) (i : Nat) (req : String)
    (h : ∀ r ∈ db.rows, r.id ≠ some i) :
    (get_role_by_id db i).1 =
        .error (notFoundExc ("Role with ID " ++ toString i ++ " not found."))
  ∧ (get_role_by_id db i).2 = [.existsByCall [("id", .vnat i)]]
  ∧ (delete_role db i).1 =
        .error (notFoundExc ("Role with ID " ++ toString i ++ " not found."))
  ∧ (delete_role db i).2.2 = [.existsByCall [("id", .vnat i)]]
  ∧ (update_role db i req).1 =
        .error (notFoundExc ("Role with id " ++ toString i ++ " not found."))
  ∧ (update_role db i req).2.2 = [.existsByCall [("id", .vnat i)]]
  ∧ TaxKind.notFound.code = 404 := by
  have hvalid : exists_by db.rows [("id", FieldVal.vnat i)] = .ok false := by
    rw [exists_by_valid_key db.rows "id" (FieldVal.vnat i) (by decide)]
    simp only [Except.ok.injEq]
    rw [List.any_eq_false]
    intro r hr
    simp only [Rol.fieldMatches, if_true]
    cases hx : r.id with
    | none => simp
    | some n =>
        have : n ≠ i := fun he => (h r hr) (by rw [hx, he])
        simp [this]
  refine ⟨?_, ?_, ?_, ?_, ?_, ?_, rfl⟩ <;>
    simp [get_role_by_id, delete_role, update_role, hvalid]

/-- Witness for C5: id 999 is absent from the one-row table. -/
theorem id_existence_gating_witness :
    (delete_role dbOneRole 999).1 =
      .error (notFoundExc ("Role with ID " ++ toString 999 ++ " not found.")) :=
  (id_existence_gating dbOneRole 999 "x" (by decide)).2.2.1

/-- C6: updating a role to its own current name never raises
`ConflictException`, and the name-uniqueness `exists_by(nombre=...)`
probe is issued only when the requested name differs from the current
one. -/
theorem self_update_no_conflict (db : DB) (i : Nat) (role : Rol)
    (hget : get_by_id db.rows i = some role) :
    (∀ e, (update_role db i role.nombre).1 = .error e → e.kind ≠ .conflict)
  ∧ RepoCall.existsByCall [("nombre", .vstr role.nombre)] ∉
      (update_role db i role.nombre).2.2
  ∧ (∀ req, role.nombre ≠ req →
      RepoCall.existsByCall [("nombre", .vstr req)] ∈ (update_role db i req).2.2) := by
  have hmem : role ∈ db.rows := List.mem_of_find?_eq_some hget
  have hid : role.id = some i := by
    have := List.find?_some hget
    exact of_decide_eq_true this
  have hexists : exists_by db.rows [("id", FieldVal.vnat i)] = .ok true := by
    rw [exists_by_valid_key db.rows "id" (FieldVal.vnat i) (by decide)]
    simp only [Except.ok.injEq]
    rw [List.any_eq_true]
    refine ⟨role, hmem, ?_⟩
    simp [Rol.fieldMatches, hid]
  refine ⟨?_, ?_, ?_⟩
  · intro e he
    simp only [update_role, hexists, hget, if_true] at he
    rcases hs : dbSave db { role with nombre := role.nombre, updated_at := some db.now }
      with e2 | p <;> rw [hs] at he
    · simp only [Except.error.injEq] at he
      subst he
      simp only [dbSave, hid] at hs
      split at hs
      · rw [Except.error.injEq] at hs
        subst hs
        simp
      · simp_all
    · simp at he
  · simp only [update_role, hexists, hget, if_true]
    rcases hs : dbSave db { role with nombre := role.nombre, updated_at := some db.now }
      with e2 | p <;> simp [hs]
  · intro req hne
    simp only [update_role, hexists, hget]
    rw [if_neg hne]
    rcases hx : exists_by db.rows [("nombre", FieldVal.vstr req)] with e2 | b
    · rw [exists_by_valid_key db.rows "nombre" (FieldVal.vstr req) (by decide)] at hx
      exact absurd hx (by simp)
    · cases b
      · rcases hs : dbSave db { role with nombre := req, updated_at := some db.now }
          with e2 | p <;> simp
      · simp

/-- Witness for C6: updating role 1 to its own name "Administrador"
issues no name probe and raises no conflict. -/
theorem self_update_no_conflict_witness :
    RepoCall.existsByCall [("nombre", .vstr "Administrador")] ∉
      (update_role dbOneRole 1 "Administrador").2.2 :=
  have h := self_update_no_conflict dbOneRole 1
    ⟨some 1, "Administrador", some 0, none⟩ (by decide)
  h.2.1

/-- C7 counterexample: the criterion key `__tablename__` names no
field of the entity, yet `exists_by` raises no `InvalidFieldException`
for it — the key sits in `Rol.__dict__` (it is assigned in the class
body), so validation passes and the query runs with the
row-independent condition `"roles" == value`, here returning a
successful `true` on the one-row table. -/
theorem exists_by_accepts_tablename :
    exists_by dbOneRole.rows [("__tablename__", FieldVal.vstr "roles")] = .ok true
    ∧ "__tablename__" ∉ ["id", "nombre", "created_at", "updated_at"] := by
  constructor <;> decide

/-- C7 amended: `exists_by` validates criterion keys against the keys
of the entity class dict, a set that strictly contains the entity's
fields; a key outside that set raises `InvalidFieldException`
(code 400) whose details enumerate the dict's non-underscore keys
(the pydantic metadata names as well as the four field names),
independently of the table contents (no query executes); a criteria
map whose keys all lie in the dict returns `true` exactly when some
row satisfies every pair — exact column equality for field keys, a
row-independent class-attribute comparison for non-field keys. -/
theorem exists_by_field_validation (rows rows2 : List Rol)
    (criteria : List (String × FieldVal)) :
    ((∃ kv ∈ criteria, kv.1 ∉ valid_fields) →
        (∃ e, exists_by rows criteria = .error e
          ∧ e.kind = .invalidField ∧ e.kind.code = 400
          ∧ e.details = some ("Valid fields are: " ++ String.intercalate ", "
              (valid_fields.filter fun f => !(pyStartsUnderscore f))))
        ∧ exists_by rows criteria = exists_by rows2 criteria)
  ∧ ((∀ kv ∈ criteria, kv.1 ∈ valid_fields) →
      (exists_by rows criteria = .ok true ↔
        ∃ r ∈ rows, ∀ kv ∈ criteria, r.fieldMatches kv.1 kv.2 = true)) := by
  constructor
  · intro h
    have hfind : (criteria.find? fun kv => !(valid_fields.contains kv.1)).isSome := by
      rw [List.find?_isSome]
      obtain ⟨kv, hkv, hni⟩ := h
      refine ⟨kv, hkv, ?_⟩
      simp [List.contains, hni]
    obtain ⟨kv0, hkv0⟩ := Option.isSome_iff_exists.mp hfind
    have herr : ∀ rs : List Rol, exists_by rs criteria =
        .error ⟨.invalidField,
          "Field \x27" ++ kv0.1 ++ "\x27 does not exist in the Rol model",
          some ("Valid fields are: " ++ String.intercalate ", "
            (valid_fields.filter fun f => !(pyStartsUnderscore f)))⟩ := by
      intro rs
      simp only [exists_by, hkv0]
    refine ⟨⟨_, herr rows, rfl, rfl, rfl⟩, (herr rows).trans (herr rows2).symm⟩
  · intro h
    have hfind : (criteria.find? fun kv => !(valid_fields.contains kv.1)) = none := by
      rw [List.find?_eq_none]
      intro kv hkv
      simp [List.contains, h kv hkv]
    simp only [exists_by, hfind, Except.ok.injEq]
    rw [List.any_eq_true]
    constructor
    · rintro ⟨r, hr, ha⟩
      exact ⟨r, hr, fun kv hkv => by
        rw [List.all_eq_true] at ha
        exact ha kv hkv⟩
    · rintro ⟨r, hr, ha⟩
      exact ⟨r, hr, by rw [List.all_eq_true]; exact fun kv hkv => ha kv hkv⟩

/-- Witness for the amended C7: the key "apellido" is in no class
dict and is rejected with the non-underscore enumeration; a valid
probe on the one-row table finds the matching row. -/
theorem exists_by_field_validation_witness :
    (∃ e, exists_by dbOneRole.rows [("apellido", FieldVal.vstr "x")] = .error e
      ∧ e.kind = .invalidField ∧ e.kind.code = 400
      ∧ e.details = some ("Valid fields are: " ++ String.intercalate ", "
          (valid_fields.filter fun f => !(pyStartsUnderscore f))))
    ∧ (exists_by dbOneRole.rows [("nombre", FieldVal.vstr "Administrador")] = .ok true) :=
  ⟨((exists_by_field_validation dbOneRole.rows [] [("apellido", FieldVal.vstr "x")]).1
      ⟨("apellido", FieldVal.vstr "x"), by decide, by decide⟩).1,
    ((exists_by_field_validation dbOneRole.rows [] [("nombre", FieldVal.vstr "Administrador")]).2
      (by decide)).mpr
      ⟨⟨some 1, "Administrador", some 0, none⟩, by decide, by decide⟩⟩

/-- The claim's notion of a populated, allow-listed criterion being
present in the search map (only `nombre` is allow-listed). -/
def hasPopulatedCriterion (sd : List (String × String)) : Prop :=
  ∃ kv ∈ sd, kv.1 = "nombre" ∧ kv.2 ≠ ""

/-- A row matching at least one populated, allow-listed criterion
under the query's actual semantics: case-insensitive `LIKE`
containment of the lowered value, in which `%` and `_` act as
wildcards. -/
def matchesSomeCriterion (sd : List (String × String)) (r : Rol) : Prop :=
  ∃ kv ∈ sd, kv.1 = "nombre" ∧ kv.2 ≠ ""
    ∧ likeMatch ('%' :: (lowerStr kv.2).data ++ ['%']) (lowerStr r.nombre).data = true

/-- Helper: membership in `tails` is the suffix relation. -/
theorem mem_tails {t s : List Char} : t ∈ tails s ↔ t <:+ s := by
  induction s with
  | nil => simp [tails, List.suffix_nil]
  | cons c s ih =>
      simp only [tails, List.mem_cons, ih]
      constructor
      · rintro (rfl | h)
        · exact List.suffix_refl _
        · exact h.trans (List.suffix_cons c s)
      · rintro ⟨pre, hpre⟩
        cases pre with
        | nil => left; simpa using hpre
        | cons d pre2 =>
            right
            refine ⟨pre2, ?_⟩
            simpa using congrArg List.tail hpre

/-- Helper: a leading `%` tries the rest of the pattern on every
suffix. -/
theorem likeMatch_wrap (ps s : List Char) :
    likeMatch ('%' :: ps) s = (tails s).any fun t => likeMatch ps t := by
  simp [likeMatch]

/-- Helper: a wildcard-free pattern followed by a trailing `%` matches
exactly the strings it prefixes. -/
theorem likeMatch_lit_free (u : List Char) (hu : ∀ c ∈ u, c ≠ '%' ∧ c ≠ '_') :
    ∀ s : List Char, (likeMatch (u ++ ['%']) s = true) ↔ u <+: s := by
  induction u with
  | nil =>
      intro s
      simp only [List.nil_append]
      rw [likeMatch_wrap]
      constructor
      · intro _
        exact List.nil_prefix
      · intro _
        rw [List.any_eq_true]
        exact ⟨[], mem_tails.mpr List.nil_suffix, rfl⟩
  | cons c u ih =>
      have hc := hu c (List.mem_cons_self c u)
      have ih2 := ih fun d hd => hu d (List.mem_cons_of_mem c hd)
      intro s
      cases s with
      | nil =>
          rw [show likeMatch (c :: u ++ ['%']) [] = false by
            simp [likeMatch, hc.1]]
          simp
      | cons d s =>
          rw [show likeMatch (c :: u ++ ['%']) (d :: s) =
              ((c = '_' || c = d) && likeMatch (u ++ ['%']) s) by
            simp [likeMatch, hc.1]]
          rw [Bool.and_eq_true, Bool.or_eq_true, List.cons_prefix_cons]
          constructor
          · rintro ⟨h1, h2⟩
            rcases h1 with h1 | h1
            · exact absurd (of_decide_eq_true h1) hc.2
            · exact ⟨of_decide_eq_true h1, (ih2 s).mp h2⟩
          · rintro ⟨h1, h2⟩
            exact ⟨Or.inr (decide_eq_true h1), (ih2 s).mpr h2⟩

/-- Helper: for a wildcard-free condition value the query's `LIKE`
containment is exactly substring containment on the lowered name. -/
theorem likeCond_free (w : String) (r : Rol)
    (hw : ∀ c ∈ w.data, c ≠ '%' ∧ c ≠ '_') :
    likeCond w r = true ↔ w.data <:+: (lowerStr r.nombre).data := by
  rw [show likeCond w r =
      likeMatch ('%' :: (w.data ++ ['%'])) (lowerStr r.nombre).data from rfl]
  rw [likeMatch_wrap, List.any_eq_true]
  constructor
  · rintro ⟨t, ht, hm⟩
    exact List.infix_iff_prefix_suffix.mpr
      ⟨t, (likeMatch_lit_free w.data hw t).mp hm, mem_tails.mp ht⟩
  · intro h
    obtain ⟨t, hpre, hsuf⟩ := List.infix_iff_prefix_suffix.mp h
    exact ⟨t, mem_tails.mpr hsuf, (likeMatch_lit_free w.data hw t).mpr hpre⟩

/-- C8 counterexample: the search value "admin_strador" is not a
substring of "administrador", yet `find` returns the row
"Administrador" for it — the value is interpolated unescaped into
`LIKE '%admin_strador%'`, where `_` matches the letter i. -/
theorem find_wildcard_counterexample :
    (⟨some 1, "Administrador", some 0, none⟩ : Rol) ∈
      (rolFind dbOneRole.rows 1 10 [("nombre", "admin_strador")]).data
    ∧ ¬ ((lowerStr "admin_strador").data <:+: (lowerStr "Administrador").data) := by
  constructor <;> decide

/-- C8 amended: every row of a `find` page comes from the table and —
when some populated allow-listed criterion exists — matches at least
one such criterion by case-insensitive `LIKE` containment of the
lowered value, in which an unescaped `%` or `_` acts as a wildcard;
every matching row is included (page 1 with the table's size as the
page size); for wildcard-free values that containment is exactly
case-insensitive substring containment, as the original claim states;
non-allow-listed keys and empty values leave no condition, in which
case `find` coincides with the unfiltered `get_pageable`, in
particular for the single empty-valued `nombre` criterion. -/
theorem find_filter_semantics (rows : List Rol) (sd : List (String × String)) :
    (∀ page size r, r ∈ (rolFind rows page size sd).data →
        r ∈ rows ∧ (hasPopulatedCriterion sd → matchesSomeCriterion sd r))
  ∧ (hasPopulatedCriterion sd →
      ∀ r ∈ rows, matchesSomeCriterion sd r →
        r ∈ (rolFind rows 1 rows.length sd).data)
  ∧ (∀ (w : String) (r : Rol), (∀ c ∈ w.data, c ≠ '%' ∧ c ≠ '_') →
      (likeCond w r = true ↔ w.data <:+: (lowerStr r.nombre).data))
  ∧ (¬ hasPopulatedCriterion sd →
      ∀ page size, rolFind rows page size sd = get_pageable rows page size)
  ∧ (∀ page size, rolFind rows page size [("nombre", "")] =
      get_pageable rows page size) := by
  have hpred : ∀ kv : String × String,
      (!(kv.2 = "" : Bool) && ["nombre"].contains kv.1) = true ↔
        (kv.1 = "nombre" ∧ kv.2 ≠ "") := by
    intro kv
    simp [List.contains]
    tauto
  have hcond_nil : findConditions sd = [] ↔ ¬ hasPopulatedCriterion sd := by
    simp only [findConditions, List.map_eq_nil_iff, List.filter_eq_nil_iff,
      hasPopulatedCriterion]
    constructor
    · intro h ⟨kv, hkv, h1, h2⟩
      exact (h kv hkv) ((hpred kv).mpr ⟨h1, h2⟩)
    · intro h kv hkv hp
      exact h ⟨kv, hkv, (hpred kv).mp hp⟩
  have hmatch : ∀ r : Rol,
      ((findConditions sd).any fun c => likeCond c r) = true ↔
        matchesSomeCriterion sd r := by
    intro r
    rw [List.any_eq_true]
    constructor
    · rintro ⟨c, hc, hb⟩
      simp only [findConditions, List.mem_map, List.mem_filter] at hc
      obtain ⟨kv, ⟨hkv, hpv⟩, hceq⟩ := hc
      obtain ⟨h1, h2⟩ := (hpred kv).mp hpv
      refine ⟨kv, hkv, h1, h2, ?_⟩
      subst hceq
      exact hb
    · rintro ⟨kv, hkv, h1, h2, h3⟩
      refine ⟨lowerStr kv.2, ?_, h3⟩
      simp only [findConditions, List.mem_map, List.mem_filter]
      exact ⟨kv, ⟨hkv, (hpred kv).mpr ⟨h1, h2⟩⟩, rfl⟩
  refine ⟨?_, ?_, fun w r hw => likeCond_free w r hw, ?_, ?_⟩
  · intro page size r hr
    simp only [rolFind] at hr
    by_cases hc : findConditions sd = []
    · rw [hc] at hr
      simp only [List.isEmpty_nil, if_true] at hr
      exact ⟨List.mem_of_mem_drop (List.mem_of_mem_take hr),
        fun hp => absurd hp (hcond_nil.mp hc)⟩
    · rw [if_neg (by simpa [List.isEmpty_iff] using hc)] at hr
      have hmem := List.mem_of_mem_drop (List.mem_of_mem_take hr)
      rw [List.mem_filter] at hmem
      exact ⟨hmem.1, fun _ => (hmatch r).mp hmem.2⟩
  · intro hp r hr hm
    have hc : ¬ findConditions sd = [] := fun h => (hcond_nil.mp h) hp
    simp only [rolFind]
    rw [if_neg (by simpa [List.isEmpty_iff] using hc)]
    have hrf : r ∈ rows.filter fun q => (findConditions sd).any fun c => likeCond c q := by
      rw [List.mem_filter]
      exact ⟨hr, (hmatch r).mpr hm⟩
    have hlen : (rows.filter fun q =>
        (findConditions sd).any fun c => likeCond c q).length ≤ rows.length :=
      List.length_filter_le _ _
    simpa [List.take_of_length_le hlen] using hrf
  · intro hnp page size
    have hc : findConditions sd = [] := hcond_nil.mpr hnp
    simp [rolFind, get_pageable, hc]
  · intro page size
    have hc : findConditions [("nombre", "")] = [] := rfl
    simp [rolFind, get_pageable, hc]

/-- Witness for C8: the populated criterion "admin" matches row
"Administrador" case-insensitively, so the row appears on the result
page. -/
theorem find_filter_semantics_witness :
    (⟨some 1, "Administrador", some 0, none⟩ : Rol) ∈
      (rolFind dbOneRole.rows 1 dbOneRole.rows.length [("nombre", "admin")]).data :=
  (find_filter_semantics dbOneRole.rows [("nombre", "admin")]).2.1
    ⟨("nombre", "admin"), by decide, rfl, by decide⟩
    ⟨some 1, "Administrador", some 0, none⟩ (by decide)
    ⟨("nombre", "admin"), by decide, rfl, by decide, by decide⟩

end FileTrack
